import Mathlib

/-!
Verification of the dexter graceful-shutdown coordinator (Go).

The development shallowly embeds the Go sources:
  - `target.go`: the `Target` type with its tracked closers, tracked
    channels and wait-group counter, and its `kill` release routine.
  - `dexter.go` (staged revision): the `Dexter` coordinator with its
    ordered target list, `Track` and the `WaitAndKill` drain loop.
Go interface values, reflection kinds and channel close semantics are
modelled explicitly so that the panic behaviour of `reflect` calls is
visible in the embedding.
-/

namespace DexterModel

/-- Direction of a Go channel type (`chan T`, `chan<- T`, `<-chan T`). -/
inductive ChanDir where
  | both
  | sendOnly
  | recvOnly
  deriving DecidableEq, Repr

/-- Runtime kinds a non-channel Go value may have in this model
(a stand-in for the non-`Chan` cases of `reflect.Kind`). -/
inductive BasicKind where
  | kBool
  | kInt
  | kString
  | kStruct
  | kFunc
  | kPtr
  | kSlice
  deriving DecidableEq, Repr

/-- The `reflect.Kind` values the embedding distinguishes. -/
inductive GoKind where
  | kChan
  | kBasic (k : BasicKind)
  deriving DecidableEq, Repr

/-- A Go interface value as passed to `TrackChannel`: the nil
interface, a channel value (with its direction and the identity of the
underlying runtime channel), or some non-channel value. -/
inductive GoValue where
  | nilV
  | chanV (dir : ChanDir) (id : Nat)
  | basicV (k : BasicKind)
  deriving DecidableEq, Repr

/-- `reflect.TypeOf`: returns the dynamic type of an interface value,
or the nil `reflect.Type` when the interface value itself is nil. -/
def reflectTypeOf : GoValue → Option GoKind
  | .nilV => none
  | .chanV _ _ => some .kChan
  | .basicV k => some (.kBasic k)

/-- Runtime panics the embedded code can raise. -/
inductive GoPanic where
  | nilTypeKind
  | closeNonChan
  | closeRecvOnly
  | closeClosed
  deriving DecidableEq, Repr

/-- Go errors returned (not panicked) by the embedded code;
`notAChannel` is `errors.New ("channel is not of type chan")`. -/
inductive GoError where
  | notAChannel
  deriving DecidableEq, Repr

/-- A tracked `io.Closer`: `closeErr` is the error value its `Close`
method returns (`none` models a nil error). -/
structure Closer where
  closeErr : Option GoError
  deriving DecidableEq, Repr

/-- The `Target` struct of `target.go`: a name, the wait-group counter,
the tracked channels and the tracked closers. -/
structure Target where
  name : String
  pending : Nat
  channels : List GoValue
  monitored : List Closer
  deriving DecidableEq, Repr

/-- `NewTarget`: builds an empty target. -/
def NewTarget (name : String) : Target :=
  { name := name, pending := 0, channels := [], monitored := [] }

/-- `Target.TrackCloser`: appends a closer to the monitored list. -/
def Target.TrackCloser (t : Target) (c : Closer) : Target :=
  { t with monitored := t.monitored ++ [c] }

/-- `Target.TrackChannel`: checks `reflect.TypeOf (channel).Kind () ==
reflect.Chan`.  On a nil interface value `reflect.TypeOf` yields the nil
`reflect.Type` and the `Kind` method call panics; on a channel kind the
value is appended and a nil error returned; otherwise an error is
returned and the target is unchanged. -/
def Target.TrackChannel (t : Target) (v : GoValue) :
    Except GoPanic (Option GoError × Target) :=
  match reflectTypeOf v with
  | none => .error .nilTypeKind
  | some k =>
    if k = .kChan then
      .ok (none, { t with channels := t.channels ++ [v] })
    else
      .ok (some .notAChannel, t)

/-- Observable actions performed by `Target.kill`: closing the i-th
tracked closer (recording the error it returned, which `kill` ignores)
and closing the underlying channel with a given identity. -/
inductive Event where
  | closeCloser (i : Nat) (err : Option GoError)
  | closeChan (id : Nat)
  deriving DecidableEq, Repr

/-- The result of running `Target.kill`: the trace of release actions
that happened, the set (as a list) of closed channel identities
afterwards, and the panic that aborted the run, if any. -/
structure KillResult where
  events : List Event
  closed : List Nat
  panic : Option GoPanic
  deriving DecidableEq, Repr

/-- The first loop of `Target.kill`: `val.Close ()` on every monitored
closer in order, with the returned error discarded, so the loop always
visits every closer. -/
def closeClosers (cs : List Closer) : List Event :=
  (cs.enum).map (fun p => Event.closeCloser p.1 p.2.closeErr)

/-- `reflect.ValueOf (channel).Close ()`: panics unless the value is a
channel that is not receive-only; closing a channel that is already
closed panics; otherwise the channel identity joins the closed set. -/
def reflectClose (v : GoValue) (closed : List Nat) :
    Except GoPanic (List Nat) :=
  match v with
  | .nilV => .error .closeNonChan
  | .basicV _ => .error .closeNonChan
  | .chanV dir id =>
    match dir with
    | .recvOnly => .error .closeRecvOnly
    | _ =>
      if id ∈ closed then .error .closeClosed
      else .ok (id :: closed)

/-- Identity of the runtime channel behind a channel value (unused on
non-channel values, where the reflective close panics first). -/
def chanId : GoValue → Nat
  | .chanV _ id => id
  | _ => 0

/-- The second loop of `Target.kill`: closes each tracked channel in
order via reflection, stopping at the first panic. -/
def closeChans : List GoValue → List Nat → List Event × List Nat × Option GoPanic
  | [], closed => ([], closed, none)
  | v :: rest, closed =>
    match reflectClose v closed with
    | .error p => ([], closed, some p)
    | .ok closed1 =>
      let r := closeChans rest closed1
      (Event.closeChan (chanId v) :: r.1, r.2)

/-- `Target.kill`: closes every monitored closer in order (ignoring
their errors), then closes every tracked channel in order via
reflection; a reflective close panic aborts the channel loop there. -/
def Target.kill (t : Target) (closed : List Nat) : KillResult :=
  let chanPart := closeChans t.channels closed
  { events := closeClosers t.monitored ++ chanPart.1
    closed := chanPart.2.1
    panic := chanPart.2.2 }

/-- The staged `Dexter` coordinator: the signal channel is not modelled
(the drain loop runs after the one signal arrived); what remains is the
ordered target list. -/
structure Dexter where
  targets : List Target
  deriving DecidableEq, Repr

/-- `NewDexter`: starts with an empty kill list. -/
def NewDexter : Dexter :=
  { targets := [] }

/-- `Dexter.Track`: appends a target to the kill list. -/
def Dexter.Track (d : Dexter) (t : Target) : Dexter :=
  { d with targets := d.targets ++ [t] }

/-- The sequence of targets `WaitAndKill` invokes `kill` on, in order:
the loop body runs once per element of the kill list. -/
def killInvocations (d : Dexter) : List Target :=
  d.targets

/-- `sync.WaitGroup.Wait` on a counter whose value over (discrete) time
is `c`: started at instant `t0`, the call polls the counter one instant
at a time and returns at the first instant whose counter value is zero;
`fuel` bounds how many instants the embedding may inspect, so a run that
never observes zero yields `none` rather than an answer. -/
def waitPoll (c : Nat → Nat) (t0 : Nat) : Nat → Option Nat
  | 0 => none
  | fuel + 1 => if c t0 = 0 then some t0 else waitPoll c (t0 + 1) fuel

/-- The `WaitAndKill` drain loop of the staged coordinator, viewed
through time: each target is described by its pending counter trace;
the loop kills the head target at the current instant, waits for its
counter to reach zero, and moves to the next target at the instant the
wait returned.  The result records, per target, the instant its `kill`
ran and the instant its `Wait` returned; `none` when some wait never
returned within the fuel. -/
def runKillSeq (fuel : Nat) : List (Nat → Nat) → Nat → Option (List (Nat × Nat))
  | [], _ => some []
  | c :: rest, t =>
    match waitPoll c t fuel with
    | none => none
    | some s =>
      match runKillSeq fuel rest s with
      | none => none
      | some l => some ((t, s) :: l)

/-- Modelled from the spec: the revision of the coordinator that owns a
`forceKillWindow` and an `exitFunc` is not under `src/` — only its test
(`TestForceKillInterval`) constructs a `Dexter` with those fields.  Per
the spec, each target is abstracted to the time its drain takes after
its release (`none` when its pending counter never reaches zero). -/
structure TargetTiming where
  drainTime : Option Nat
  deriving DecidableEq, Repr

/-- Terminal states of a `waitAndShutdown` run: quiet completion after
`elapsed` time units, or the exit hook invoked with `exitCode`. -/
inductive ShutdownOutcome where
  | drainedAll (elapsed : Nat)
  | forceKilled (exitCode : Nat)
  deriving DecidableEq, Repr

/-- Modelled from the spec: `waitAndShutdown` after the signal arrived.
A one-shot deadline timer of duration `window` was armed at time zero;
the loop releases the head target, then waits its drain time; if the
deadline passes before that drain finishes (or the drain never
finishes), the exit hook is invoked with status 1 and the loop is
abandoned in place, the remaining targets untouched.  Returns the
outcome and how many targets had their release invoked. -/
def waitAndShutdown (window : Nat) :
    List TargetTiming → Nat → Nat → ShutdownOutcome × Nat
  | [], elapsed, rel => (.drainedAll elapsed, rel)
  | t :: rest, elapsed, rel =>
    match t.drainTime with
    | none => (.forceKilled 1, rel + 1)
    | some d =>
      if elapsed + d ≤ window then
        waitAndShutdown window rest (elapsed + d) (rel + 1)
      else
        (.forceKilled 1, rel + 1)

/-- Total drain time of a target sequence; `none` when some target
never drains. -/
def cumDrain : List TargetTiming → Option Nat
  | [] => some 0
  | t :: rest =>
    match t.drainTime, cumDrain rest with
    | some d, some r => some (d + r)
    | _, _ => none

/-- Whether the whole drain sequence, started with `elapsed` time units
already spent of the deadline window, finishes before the deadline. -/
def completesFrom (window elapsed : Nat) (ts : List TargetTiming) : Bool :=
  match cumDrain ts with
  | some d => elapsed + d ≤ window
  | none => false

/-- Whether the whole drain sequence finishes within the window. -/
def completesWithin (window : Nat) (ts : List TargetTiming) : Bool :=
  completesFrom window 0 ts

/-- The channel-close trace `kill` produces when nothing panics: one
close event per tracked channel, in registration order. -/
def chansTrace (ch : List GoValue) : List Event :=
  ch.map (fun v => Event.closeChan (chanId v))

/-- Decides that closing the given channels in order, starting from the
given closed set, raises no reflective panic. -/
def chansClosable : List GoValue → List Nat → Bool
  | [], _ => true
  | v :: rest, closed =>
    match reflectClose v closed with
    | .error _ => false
    | .ok closed1 => chansClosable rest closed1

/-- The closed set after closing the given channels in order (stopping
where a reflective close would panic). -/
def chansClosedAfter : List GoValue → List Nat → List Nat
  | [], closed => closed
  | v :: rest, closed =>
    match reflectClose v closed with
    | .error _ => closed
    | .ok closed1 => chansClosedAfter rest closed1

theorem closeChans_of_closable :
    ∀ (ch : List GoValue) (closed : List Nat),
      chansClosable ch closed = true →
      closeChans ch closed = (chansTrace ch, chansClosedAfter ch closed, none) := by
  intro ch
  induction ch with
  | nil => intro closed _; rfl
  | cons v rest ih =>
    intro closed h
    cases h1 : reflectClose v closed with
    | error p => simp [chansClosable, h1] at h
    | ok closed1 =>
      have h2 : chansClosable rest closed1 = true := by
        simpa [chansClosable, h1] using h
      simp [closeChans, chansTrace, chansClosedAfter, h1, ih closed1 h2]

theorem waitPoll_some :
    ∀ (fuel : Nat) (c : Nat → Nat) (t0 s : Nat),
      waitPoll c t0 fuel = some s → t0 ≤ s ∧ c s = 0 := by
  intro fuel
  induction fuel with
  | zero => intro c t0 s h; simp [waitPoll] at h
  | succ f ih =>
    intro c t0 s h
    by_cases h0 : c t0 = 0
    · simp [waitPoll, h0] at h
      exact ⟨Nat.le_of_eq h, h ▸ h0⟩
    · simp [waitPoll, h0] at h
      obtain ⟨h1, h2⟩ := ih c (t0 + 1) s h
      exact ⟨Nat.le_trans (Nat.le_succ t0) h1, h2⟩

theorem waitPoll_of_zero :
    ∀ (n : Nat) (c : Nat → Nat) (t0 : Nat),
      c (t0 + n) = 0 → ∃ s, waitPoll c t0 (n + 1) = some s := by
  intro n
  induction n with
  | zero =>
    intro c t0 h
    exact ⟨t0, by simp [waitPoll, Nat.add_zero] at h ⊢; exact h⟩
  | succ m ih =>
    intro c t0 h
    by_cases h0 : c t0 = 0
    · exact ⟨t0, by simp [waitPoll, h0]⟩
    · have h1 : c (t0 + 1 + m) = 0 := by
        have : t0 + (m + 1) = t0 + 1 + m := by omega
        rw [this] at h
        exact h
      obtain ⟨s, hs⟩ := ih c (t0 + 1) h1
      exact ⟨s, by simp [waitPoll, h0]; exact hs⟩

theorem runKillSeq_head :
    ∀ (fuel : Nat) (cs : List (Nat → Nat)) (t : Nat) (times : List (Nat × Nat)),
      runKillSeq fuel cs t = some times →
      ∀ k s, times[0]? = some (k, s) → k = t := by
  intro fuel cs t times h k s hks
  cases cs with
  | nil =>
    simp [runKillSeq] at h
    subst h
    simp at hks
  | cons c rest =>
    cases h1 : waitPoll c t fuel with
    | none => simp [runKillSeq, h1] at h
    | some s0 =>
      cases h2 : runKillSeq fuel rest s0 with
      | none => simp [runKillSeq, h1, h2] at h
      | some l =>
        simp [runKillSeq, h1, h2] at h
        subst h
        simp at hks
        exact hks.1.symm

theorem runKillSeq_ordered_aux :
    ∀ (fuel : Nat) (cs : List (Nat → Nat)) (t : Nat) (times : List (Nat × Nat)),
      runKillSeq fuel cs t = some times →
      times.length = cs.length ∧
      (∀ (i k s : Nat), times[i]? = some (k, s) →
        k ≤ s ∧ (∃ c, cs[i]? = some c ∧ c s = 0) ∧
        (∀ k2 s2, times[i + 1]? = some (k2, s2) → k2 = s)) := by
  intro fuel cs
  induction cs with
  | nil =>
    intro t times h
    simp [runKillSeq] at h
    subst h
    simp
  | cons c rest ih =>
    intro t times h
    cases h1 : waitPoll c t fuel with
    | none => simp [runKillSeq, h1] at h
    | some s0 =>
      cases h2 : runKillSeq fuel rest s0 with
      | none => simp [runKillSeq, h1, h2] at h
      | some l =>
        simp [runKillSeq, h1, h2] at h
        subst h
        obtain ⟨hlen, hrest⟩ := ih s0 l h2
        refine ⟨by simp [hlen], ?_⟩
        intro i k s hks
        cases i with
        | zero =>
          simp at hks
          obtain ⟨hk, hs⟩ := hks
          refine ⟨?_, ⟨c, by simp, ?_⟩, ?_⟩
          · rw [← hk, ← hs]
            exact (waitPoll_some fuel c t s0 h1).1
          · rw [← hs]
            exact (waitPoll_some fuel c t s0 h1).2
          · intro k2 s2 hk2
            simp only [List.getElem?_cons_succ] at hk2
            rw [← hs]
            exact runKillSeq_head fuel rest s0 l h2 k2 s2 hk2
        | succ j =>
          simp only [List.getElem?_cons_succ] at hks
          obtain ⟨hle, hex, hnext⟩ := hrest j k s hks
          refine ⟨hle, ?_, ?_⟩
          · simpa using hex
          · intro k2 s2 hk2
            simp only [List.getElem?_cons_succ] at hk2
            exact hnext k2 s2 hk2

theorem waitAndShutdown_force_aux (window : Nat) :
    ∀ (ts : List TargetTiming) (elapsed rel : Nat),
      elapsed ≤ window → completesFrom window elapsed ts = false →
      ∃ k, waitAndShutdown window ts elapsed rel = (ShutdownOutcome.forceKilled 1, k)
        ∧ k ≤ rel + ts.length := by
  intro ts
  induction ts with
  | nil =>
    intro elapsed rel hel hfc
    exfalso
    simp [completesFrom, cumDrain] at hfc
    omega
  | cons t rest ih =>
    intro elapsed rel hel hfc
    cases ht : t.drainTime with
    | none =>
      refine ⟨rel + 1, by simp [waitAndShutdown, ht],
        by simp only [List.length_cons]; omega⟩
    | some d =>
      by_cases hd : elapsed + d ≤ window
      · have hfc2 : completesFrom window (elapsed + d) rest = false := by
          cases hr : cumDrain rest with
          | none => simp [completesFrom, hr]
          | some r =>
            simp [completesFrom, cumDrain, ht, hr] at hfc ⊢
            omega
        obtain ⟨k, hk, hkle⟩ := ih (elapsed + d) (rel + 1) hd hfc2
        refine ⟨k, by simp [waitAndShutdown, ht, hd]; exact hk, ?_⟩
        simp at hkle ⊢
        omega
      · refine ⟨rel + 1, by simp [waitAndShutdown, ht, hd],
          by simp only [List.length_cons]; omega⟩

/-- C1: during `waitAndShutdown`, the one-shot deadline timer of
duration `window` armed after the signal forces the fatal path:
whenever the drain walk does not complete within the window, the run
ends with the exit hook invoked with a non-zero status and the drain
sequence abandoned in place, only the first `k` targets having had
their release invoked. -/
theorem waitAndShutdown_forceKill_on_timeout (window : Nat)
    (ts : List TargetTiming) (h : completesWithin window ts = false) :
    ∃ code k,
      waitAndShutdown window ts 0 0 = (ShutdownOutcome.forceKilled code, k)
      ∧ code ≠ 0 ∧ k ≤ ts.length := by
  obtain ⟨k, hk, hle⟩ :=
    waitAndShutdown_force_aux window ts 0 0 (Nat.zero_le window) h
  exact ⟨1, k, hk, one_ne_zero, by simpa using hle⟩

/-- Witness for C1: a window of zero and a single never-draining
target force the non-zero-status exit path. -/
theorem waitAndShutdown_forceKill_on_timeout_witness :
    ∃ code k,
      waitAndShutdown 0 [TargetTiming.mk none] 0 0 =
        (ShutdownOutcome.forceKilled code, k)
      ∧ code ≠ 0 ∧ k ≤ 1 := by
  simpa using waitAndShutdown_forceKill_on_timeout 0 [TargetTiming.mk none] rfl

/-- C2: the shutdown walk processes the registered targets strictly in
registration order: in any completed run of the drain loop over the
counter traces `cs`, target i is released at an instant no later than
the instant its counter reaches zero, its counter is zero at the
instant its wait returns, and target i+1 is released exactly at that
instant — never earlier. -/
theorem waitAndKill_strict_registration_order (fuel : Nat)
    (cs : List (Nat → Nat)) (t : Nat) (times : List (Nat × Nat))
    (h : runKillSeq fuel cs t = some times) :
    times.length = cs.length ∧
    ∀ (i k s : Nat), times[i]? = some (k, s) →
      k ≤ s ∧ (∃ c, cs[i]? = some c ∧ c s = 0) ∧
      ∀ k2 s2, times[i + 1]? = some (k2, s2) → k2 = s :=
  runKillSeq_ordered_aux fuel cs t times h

/-- Witness for C2: two immediately-drained targets run through the
loop and produce one kill/drain instant pair per target. -/
theorem waitAndKill_strict_registration_order_witness :
    ([((0 : Nat), (0 : Nat)), (0, 0)] : List (Nat × Nat)).length =
      ([fun _ => 0, fun _ => 0] : List (Nat → Nat)).length :=
  (waitAndKill_strict_registration_order 1 [fun _ => 0, fun _ => 0] 0
    [(0, 0), (0, 0)] rfl).1

/-- C3 counterexample: at the nil interface value — a value whose
runtime kind is not a channel — `TrackChannel` does not return the
not-a-channel error with the target unchanged: it panics. -/
theorem trackChannel_nil_counterexample :
    Target.TrackChannel (NewTarget "t") GoValue.nilV =
      Except.error GoPanic.nilTypeKind
    ∧ Target.TrackChannel (NewTarget "t") GoValue.nilV ≠
        Except.ok (some GoError.notAChannel, NewTarget "t") :=
  ⟨rfl, fun h => Except.noConfusion h⟩

/-- C3 (amended): for every non-nil input value, `TrackChannel`
succeeds and appends the value to the tracked-channel list exactly when
its runtime kind is a channel; on any non-nil non-channel value it
returns the not-a-channel error and leaves the list unchanged. -/
theorem trackChannel_guard (t : Target) (v : GoValue)
    (h : v ≠ GoValue.nilV) :
    (reflectTypeOf v = some GoKind.kChan →
      Target.TrackChannel t v =
        Except.ok (none, { t with channels := t.channels ++ [v] }))
    ∧ (reflectTypeOf v ≠ some GoKind.kChan →
      Target.TrackChannel t v = Except.ok (some GoError.notAChannel, t)) := by
  cases v with
  | nilV => exact absurd rfl h
  | chanV dir id => exact ⟨fun _ => rfl, fun hn => absurd rfl hn⟩
  | basicV k =>
    refine ⟨fun hc => ?_, fun _ => rfl⟩
    simp [reflectTypeOf] at hc

/-- Witness for C3 (amended): a bidirectional channel value registers
successfully and is appended. -/
theorem trackChannel_guard_witness :
    Target.TrackChannel (NewTarget "w") (GoValue.chanV ChanDir.both 7) =
      Except.ok (none,
        { NewTarget "w" with channels := [GoValue.chanV ChanDir.both 7] }) :=
  (trackChannel_guard (NewTarget "w") (GoValue.chanV ChanDir.both 7)
    (fun hh => GoValue.noConfusion hh)).1 rfl

/-- C4: the release routine closes every tracked closer first, in
registration order, and only then every tracked channel, in
registration order (stated where the channel closes raise no panic);
and releasing a target with no closers and no channels is a no-op. -/
theorem kill_ordered_then_noop :
    (∀ (t : Target) (closed : List Nat),
        chansClosable t.channels closed = true →
        Target.kill t closed =
          { events := closeClosers t.monitored ++ chansTrace t.channels
            closed := chansClosedAfter t.channels closed
            panic := none })
    ∧ ∀ (name : String) (p : Nat) (closed : List Nat),
        Target.kill (Target.mk name p [] []) closed =
          { events := [], closed := closed, panic := none } := by
  constructor
  · intro t closed h
    simp [Target.kill, closeChans_of_closable t.channels closed h]
  · intro name p closed
    rfl

/-- Witness for C4: a target with one closer and one channel releases
the closer first, then the channel. -/
theorem kill_ordered_then_noop_witness :
    Target.kill
        (Target.mk "w" 0 [GoValue.chanV ChanDir.both 5] [Closer.mk none]) [] =
      { events := [Event.closeCloser 0 none, Event.closeChan 5]
        closed := [5]
        panic := none } :=
  (kill_ordered_then_noop).1
    (Target.mk "w" 0 [GoValue.chanV ChanDir.both 5] [Closer.mk none]) []
    (by decide)

/-- C5: an error returned by an individual closer during release is
never propagated and never prevents later releases: the kill trace
always records one close per monitored closer, in order, before any
channel event, and the panic and closed-set outcomes of `kill` do not
depend on the closers or the errors they return. -/
theorem kill_absorbs_closer_errors (t : Target) (closed : List Nat) :
    (Target.kill t closed).events =
      closeClosers t.monitored ++ (closeChans t.channels closed).1
    ∧ (closeClosers t.monitored).length = t.monitored.length
    ∧ ∀ cs : List Closer,
        (Target.kill { t with monitored := cs } closed).panic =
          (Target.kill t closed).panic
        ∧ (Target.kill { t with monitored := cs } closed).closed =
          (Target.kill t closed).closed :=
  ⟨rfl, by simp [closeClosers], fun cs => ⟨rfl, rfl⟩⟩

/-- C6: a wait on the pending counter returns exactly when the counter
is, or becomes, zero: some amount of polling fuel makes `waitPoll`
return iff the counter trace hits zero at some instant at or after the
start; with no such instant, no amount of fuel makes the call return. -/
theorem wait_returns_iff_counter_zero (c : Nat → Nat) (t0 : Nat) :
    (∃ fuel s, waitPoll c t0 fuel = some s) ↔ (∃ s, t0 ≤ s ∧ c s = 0) := by
  constructor
  · rintro ⟨fuel, s, hs⟩
    exact ⟨s, waitPoll_some fuel c t0 s hs⟩
  · rintro ⟨s, hts, hcs⟩
    obtain ⟨s2, hs2⟩ := waitPoll_of_zero (s - t0) c t0
      (by rw [Nat.add_sub_cancel' hts]; exact hcs)
    exact ⟨s - t0 + 1, s2, hs2⟩

/-- C7: `Track` appends the target to the ordered kill list, with no
upper bound and no distinctness check, and tracking the same target
twice makes the kill sequence invoke its release twice. -/
theorem track_appends_no_dedup (d : Dexter) (t : Target) :
    (Dexter.Track d t).targets = d.targets ++ [t]
    ∧ (Dexter.Track d t).targets.length = d.targets.length + 1
    ∧ killInvocations (Dexter.Track (Dexter.Track d t) t) = d.targets ++ [t, t]
    ∧ (killInvocations (Dexter.Track (Dexter.Track d t) t)).count t =
        (killInvocations d).count t + 2 := by
  refine ⟨rfl, by simp [Dexter.Track], ?_, ?_⟩
  · simp [Dexter.Track, killInvocations]
  · simp [Dexter.Track, killInvocations, List.count_append]

/-- C8: `TrackChannel` on the nil interface value panics instead of
returning the not-a-channel error: the reflected type of nil is the nil
type, and the kind call dereferences it before any error branch. -/
theorem trackChannel_nil_panics (t : Target) :
    reflectTypeOf GoValue.nilV = none
    ∧ Target.TrackChannel t GoValue.nilV = Except.error GoPanic.nilTypeKind
    ∧ ∀ e : GoError,
        Target.TrackChannel t GoValue.nilV ≠ Except.ok (some e, t) :=
  ⟨rfl, rfl, fun _ h => Except.noConfusion h⟩

/-- C9: the registration guard checks only the kind, so a receive-only
channel registers successfully, and the later release panics when the
reflective close reaches it. -/
theorem recvOnly_accepted_then_kill_panics (name : String) (id : Nat) :
    Target.TrackChannel (NewTarget name) (GoValue.chanV ChanDir.recvOnly id) =
      Except.ok (none,
        { NewTarget name with channels := [GoValue.chanV ChanDir.recvOnly id] })
    ∧ (Target.kill
        { NewTarget name with
            channels := [GoValue.chanV ChanDir.recvOnly id] } []).panic
      = some GoPanic.closeRecvOnly :=
  ⟨rfl, rfl⟩

/-- C10: tracked channels are not deduplicated: registering the same
channel twice makes the release close it a second time, panicking with
close-of-closed, while a single registration releases cleanly; and
running the release a second time over the already-closed channel
panics the same way, unlike closer errors, which are absorbed. -/
theorem duplicate_channel_close_panics (name : String) (id : Nat)
    (cs : List Closer) :
    (Target.kill (Target.mk name 0
        [GoValue.chanV ChanDir.both id, GoValue.chanV ChanDir.both id]
        cs) []).panic = some GoPanic.closeClosed
    ∧ (Target.kill (Target.mk name 0
        [GoValue.chanV ChanDir.both id] cs) []).panic = none
    ∧ (Target.kill (Target.mk name 0 [GoValue.chanV ChanDir.both id] cs)
        ((Target.kill (Target.mk name 0
          [GoValue.chanV ChanDir.both id] cs) []).closed)).panic
      = some GoPanic.closeClosed := by
  refine ⟨?_, ?_, ?_⟩ <;> simp [Target.kill, closeChans, reflectClose]

end DexterModel

